import Mathlib

/- Verification development for the ClaudeAutoResponder core.

   The Python sources are shallowly embedded below:
   - claude_auto_responder/core/utils.py          (dynamic text-window expansion)
   - claude_auto_responder/detection/parser.py    (box extraction and prompt validation)
   - claude_auto_responder/models/prompt.py       (ClaudePrompt dataclass)
   - claude_auto_responder/core/responder.py      (countdown state machine, single- and
                                                   multi-window expiry paths)
   - claude_auto_responder/platform/macos.py      (keystroke dispatch)

   Conventions of the embedding:
   - Python floats used as wall-clock timestamps become integers: the code only ever
     subtracts and compares timestamps, so any ordered additive group models them;
     integers keep every comparison kernel-computable.
   - Python's hash of the fingerprint string is modelled by the string itself; the code
     only ever compares fingerprints for equality within one run, and equality of the
     strings coincides with equality of any deterministic hash on the inputs at issue.
   - Regexes are embedded as deterministic matchers.  Every literal in the patterns at
     hand starts with a non-whitespace, non-repeated character, so maximal-munch matching
     coincides with the backtracking semantics of the Python re module.
   - The MULTILINE patterns anchored with both ^ and $ are modelled as per-line full
     matches (allowing trailing in-line whitespace), which agrees with re semantics on
     all newline-separated inputs.
   - External collaborators (window text retrieval, focus queries, key injection) are
     passed in as explicit parameters or oracles, mirroring the interface contracts. -/

namespace ClaudeAutoResponder

/-- Python regex whitespace class: space, tab, newline, carriage return, vertical tab
(0x0b) and form feed (0x0c). -/
def isWs (c : Char) : Bool :=
  c = ' ' || c = '\t' || c = '\n' || c = '\r' || c = Char.ofNat 11 || c = Char.ofNat 12

/-- ASCII apostrophe, written via its code point. -/
def apos : Char := Char.ofNat 39

/-- ASCII apostrophe as a one-character string. -/
def aposS : String := ⟨[apos]⟩

/-- Python str.lower; Char.toLower agrees with it on every character occurring in the
compared literals. -/
def lowerS (s : String) : String := ⟨s.data.map Char.toLower⟩

/-- Contiguous-sublist test: does `pat` occur inside the list? -/
def isSubOf (pat : List Char) : List Char → Bool
  | [] => pat.isEmpty
  | c :: cs => pat.isPrefixOf (c :: cs) || isSubOf pat cs

/-- Python substring test `pat in hay`. -/
def containsSub (hay pat : String) : Bool := isSubOf pat.data hay.data

/-- Helper for splitNl: accumulate the current piece (reversed) while scanning. -/
def splitNlAux : List Char → List Char → List String
  | [], acc => [⟨acc.reverse⟩]
  | c :: cs, acc =>
    if c = '\n' then ⟨acc.reverse⟩ :: splitNlAux cs []
    else splitNlAux cs (c :: acc)

/-- Python `text.split('\n')`. -/
def splitNl (s : String) : List String := splitNlAux s.data []

/-- Python `sep.join(pieces)`, structurally recursive. -/
def joinSep (sep : String) : List String → String
  | [] => ""
  | [s] => s
  | s :: t :: rest => s ++ sep ++ joinSep sep (t :: rest)

/-- Match a literal character sequence at the head of the input, returning the rest. -/
def matchLit (lit : List Char) (cs : List Char) : Option (List Char) :=
  if lit.isPrefixOf cs then some (cs.drop lit.length) else none

/-- Consume one or more whitespace characters (regex `\s+`). -/
def skipWs1 (cs : List Char) : Option (List Char) :=
  match cs with
  | c :: rest => if isWs c then some (rest.dropWhile isWs) else none
  | [] => none

/-- Consume zero or more whitespace characters (regex `\s*`). -/
def skipWs0 (cs : List Char) : List Char := cs.dropWhile isWs

/-- Consume an optional single character (regex `c?`). -/
def skipOpt (c : Char) (cs : List Char) : List Char :=
  match cs with
  | d :: rest => if d = c then rest else d :: rest
  | [] => []

/-- Matcher at one position for `Do\s+you\s+want` (IGNORECASE), applied to lowered text. -/
def doYouWantAt (cs : List Char) : Bool :=
  match matchLit ['d', 'o'] cs with
  | none => false
  | some r1 =>
    match skipWs1 r1 with
    | none => false
    | some r2 =>
      match matchLit ['y', 'o', 'u'] r2 with
      | none => false
      | some r3 =>
        match skipWs1 r3 with
        | none => false
        | some r4 => (matchLit ['w', 'a', 'n', 't'] r4).isSome

/-- Matcher at one position for `❯\s*1\.\s*Yes` (case sensitive). -/
def caretOption1At (cs : List Char) : Bool :=
  match matchLit ['❯'] cs with
  | none => false
  | some r1 =>
    match matchLit ['1', '.'] (skipWs0 r1) with
    | none => false
    | some r2 => (matchLit ['Y', 'e', 's'] (skipWs0 r2)).isSome

/-- Matcher at one position for `2\.\s*Yes,?\s*and\s*don'?t\s*ask\s*again` (IGNORECASE),
applied to lowered text. -/
def option2At (cs : List Char) : Bool :=
  match matchLit ['2', '.'] cs with
  | none => false
  | some r1 =>
    match matchLit ['y', 'e', 's'] (skipWs0 r1) with
    | none => false
    | some r2 =>
      match matchLit ['a', 'n', 'd'] (skipWs0 (skipOpt ',' r2)) with
      | none => false
      | some r3 =>
        match matchLit ['d', 'o', 'n'] (skipWs0 r3) with
        | none => false
        | some r4 =>
          match matchLit ['t'] (skipOpt apos r4) with
          | none => false
          | some r5 =>
            match matchLit ['a', 's', 'k'] (skipWs0 r5) with
            | none => false
            | some r6 => (matchLit ['a', 'g', 'a', 'i', 'n'] (skipWs0 r6)).isSome

/-- Regex search: try the position matcher at every suffix of the input. -/
def searchFrom (p : List Char → Bool) : List Char → Bool
  | [] => p []
  | c :: cs => p (c :: cs) || searchFrom p cs

/-- `do_you_want_pattern.search`. -/
def hasDoYouWant (s : String) : Bool := searchFrom doYouWantAt (lowerS s).data

/-- `caret_option1_pattern.search`. -/
def hasCaretOption1 (s : String) : Bool := searchFrom caretOption1At s.data

/-- `option2_pattern.search`. -/
def hasOption2Pat (s : String) : Bool := searchFrom option2At (lowerS s).data

/-- Line matcher for `^\s*╭─+╮` anchored at the start of a line (parser.py
box_top_pattern, used with `.match` on single lines). -/
def topLine (s : String) : Bool :=
  match s.data.dropWhile isWs with
  | c :: rest =>
    c = '╭' &&
      (match rest with
       | d :: rest2 => d = '─' && ((rest2.dropWhile (fun e => e = '─')).head? == some '╮')
       | [] => false)
  | [] => false

/-- Line matcher for `^\s*╰─+╯` anchored at the start of a line (parser.py
box_bottom_pattern). -/
def bottomLine (s : String) : Bool :=
  match s.data.dropWhile isWs with
  | c :: rest =>
    c = '╰' &&
      (match rest with
       | d :: rest2 => d = '─' && ((rest2.dropWhile (fun e => e = '─')).head? == some '╯')
       | [] => false)
  | [] => false

/-- Full-line matcher for `^\s*╭─+╮\s*$` (utils.py box_start_pattern). -/
def topLineFull (s : String) : Bool :=
  match s.data.dropWhile isWs with
  | c :: rest =>
    c = '╭' &&
      (match rest with
       | d :: rest2 =>
         d = '─' &&
           (match rest2.dropWhile (fun e => e = '─') with
            | e :: rest3 => e = '╮' && (rest3.dropWhile isWs).isEmpty
            | [] => false)
       | [] => false)
  | [] => false

/-- Full-line matcher for `^\s*╰─+╯\s*$` (utils.py box_end_pattern). -/
def bottomLineFull (s : String) : Bool :=
  match s.data.dropWhile isWs with
  | c :: rest =>
    c = '╰' &&
      (match rest with
       | d :: rest2 =>
         d = '─' &&
           (match rest2.dropWhile (fun e => e = '─') with
            | e :: rest3 => e = '╯' && (rest3.dropWhile isWs).isEmpty
            | [] => false)
       | [] => false)
  | [] => false

/-- Global configuration constants from core/utils.py. -/
def LINES_TO_CAPTURE : Nat := 500

/-- Initial tail size of the dynamic expansion. -/
def INITIAL_LINES : Nat := 15

/-- Expansion increment of the dynamic expansion. -/
def EXPANSION_STEP : Nat := 10

/-- Hard ceiling of the dynamic expansion. -/
def MAX_LINES : Nat := 500

/-- Python list slice `xs[-n:]` for `n ≥ 1`. -/
def lastN (n : Nat) (xs : List α) : List α := xs.drop (xs.length - n)

/-- `'\n'.join(lines[-n:])`. -/
def joinLast (lines : List String) (n : Nat) : String :=
  joinSep "\n" (lastN n lines)

/-- MULTILINE search of the utils box_end_pattern over a text. -/
def hasBoxEndFull (s : String) : Bool := (splitNl s).any bottomLineFull

/-- MULTILINE search of the utils box_start_pattern over a text. -/
def hasBoxStartFull (s : String) : Bool := (splitNl s).any topLineFull

/-- The tool_indicators list hard-coded in _extract_recent_text_dynamic. -/
def toolIndicators : List String :=
  ["edit file", "read file", "bash", "write", "multiedit",
   "grep", "glob", "ls", "webfetch", "websearch", "task"]

/-- `any(indicator in recent_text.lower() for indicator in tool_indicators)`. -/
def hasToolContent (s : String) : Bool :=
  toolIndicators.any (fun ind => containsSub (lowerS s) ind)

/-- One iteration of the while loop of _extract_recent_text_dynamic.
`Sum.inl cur2` means the loop continues with `current_lines = cur2`; `Sum.inr w` means
the call returns window `w` (either the early return or a break followed by the final
fallback join, which coincides with the window of the current iteration). -/
def extractStep (lines : List String) (cur : Nat) : Sum Nat String :=
  let recent := joinLast lines cur
  if !(hasBoxEndFull recent && hasCaretOption1 recent) then
    if lines.length ≤ cur then Sum.inr recent
    else Sum.inl (min (min (cur + EXPANSION_STEP) lines.length) MAX_LINES)
  else
    if hasBoxStartFull recent && hasToolContent recent then Sum.inr recent
    else if lines.length ≤ cur || MAX_LINES ≤ cur then Sum.inr recent
    else Sum.inl (min (min (cur + EXPANSION_STEP) lines.length) MAX_LINES)

/-- The while loop of _extract_recent_text_dynamic, with explicit fuel.  `none` means the
fuel was exhausted; the Python loop has no fuel, so inputs on which every fuel yields
`none` are inputs on which the Python function never returns. -/
def extractLoop (lines : List String) : Nat → Nat → Option String
  | 0, _ => none
  | fuel + 1, cur =>
    if cur ≤ min MAX_LINES lines.length then
      match extractStep lines cur with
      | Sum.inr w => some w
      | Sum.inl cur2 => extractLoop lines fuel cur2
    else some (joinLast lines cur)

/-- _extract_recent_text / _extract_recent_text_dynamic.  Fuel 100 covers every
terminating run: `current_lines` starts at `min 15 total` and strictly increases by up to
10 per continuing iteration while staying at most `min 500 total`, so a run that makes
more than 51 continuing iterations has reached a state the loop maps to itself, i.e. the
Python function diverges (see the development around the C8 claim). -/
def extractRecentText (text : String) : String :=
  let lines := splitNl text
  if lines.isEmpty then ""
  else (extractLoop lines 100 (min INITIAL_LINES lines.length)).getD
    (joinLast lines (min INITIAL_LINES lines.length))

/-- ClaudePrompt dataclass from models/prompt.py, with its default field values. -/
structure ClaudePrompt where
  is_valid : Bool := false
  has_do_you_want : Bool := false
  has_caret_on_option1 : Bool := false
  has_option2 : Bool := false
  has_box_structure : Bool := false
  detected_tool : Option String := none
deriving DecidableEq

/-- The derived option_to_select property: "2" if has_option2 else "1". -/
def ClaudePrompt.option_to_select (p : ClaudePrompt) : String :=
  if p.has_option2 then "2" else "1"

/-- Descending-by-length comparison used to embed
`sorted(self.whitelisted_tools, key=len, reverse=True)`. -/
def relLen (a b : String) : Prop := b.length ≤ a.length

instance : DecidableRel relLen := fun a b => Nat.decLe b.length a.length

instance : IsTotal String relLen := ⟨fun a b => le_total b.length a.length⟩

instance : IsTrans String relLen := ⟨fun _ _ _ h1 h2 => le_trans h2 h1⟩

/-- Python's stable sort by length descending; insertion sort has the same stable
semantics for a total preorder. -/
def sortedTools (tools : List String) : List String := List.insertionSort relLen tools

/-- `tool.lower() in box_content.lower()`. -/
def toolMatches (t box : String) : Bool := containsSub (lowerS box) (lowerS t)

/-- _detect_tool_in_box: first whitelist entry, in descending-length stable order, that
is a case-insensitive substring of the box. -/
def detectToolInBox (tools : List String) (box : String) : Option String :=
  (sortedTools tools).find? (fun t => toolMatches t box)

/-- Inner collection loop of _extract_claude_boxes: scan forward from an already-seen
box-top line (in `acc`), tracking the nesting level.  Returns the completed box (if the
matching bottom was found) together with the lines at which the outer scan resumes.
The safety break abandons the box once more than LINES_TO_CAPTURE lines are collected,
resuming the outer scan at the line just appended. -/
def scanBox : Nat → List String → List String → Option (List String) × List String
  | _, _, [] => (none, [])
  | level, acc, l :: rest =>
    let acc2 := acc ++ [l]
    if topLine l then
      if LINES_TO_CAPTURE < acc2.length then (none, l :: rest)
      else scanBox (level + 1) acc2 rest
    else if bottomLine l then
      if level = 1 then (some acc2, rest)
      else if LINES_TO_CAPTURE < acc2.length then (none, l :: rest)
      else scanBox (level - 1) acc2 rest
    else
      if LINES_TO_CAPTURE < acc2.length then (none, l :: rest)
      else scanBox level acc2 rest

/-- The resume point returned by scanBox is never longer than its input. -/
theorem scanBox_rem_le :
    ∀ (ls : List String) (level : Nat) (acc : List String),
      (scanBox level acc ls).2.length ≤ ls.length := by
  intro ls
  induction ls with
  | nil => intro level acc; simp [scanBox]
  | cons l rest ih =>
    intro level acc
    simp only [scanBox]
    split
    · split
      · simp
      · exact le_trans (ih _ _) (Nat.le_succ _)
    · split
      · split
        · simp
        · split
          · simp
          · exact le_trans (ih _ _) (Nat.le_succ _)
      · split
        · simp
        · exact le_trans (ih _ _) (Nat.le_succ _)

/-- Fuel-bounded outer loop of _extract_claude_boxes.  Every iteration of the Python
while loop strictly advances the scan index, so fuel equal to the number of lines is
enough to reproduce the loop exactly (extractBoxesFuel_congr below makes the fuel
irrelevant beyond that bound). -/
def extractBoxesFuel : Nat → List String → List (List String)
  | 0, _ => []
  | _, [] => []
  | fuel + 1, l :: rest =>
    if topLine l then
      match scanBox 1 [l] rest with
      | (some box, rem) => box :: extractBoxesFuel fuel rem
      | (none, rem) => extractBoxesFuel fuel rem
    else extractBoxesFuel fuel rest

/-- Outer loop of _extract_claude_boxes at the level of line lists. -/
def extractBoxes (ls : List String) : List (List String) := extractBoxesFuel ls.length ls

/-- Any fuel at least the number of lines gives the same extraction result. -/
theorem extractBoxesFuel_congr :
    ∀ (fuel fuel2 : Nat) (ls : List String), ls.length ≤ fuel → ls.length ≤ fuel2 →
      extractBoxesFuel fuel ls = extractBoxesFuel fuel2 ls := by
  intro fuel
  induction fuel with
  | zero =>
    intro fuel2 ls h1 _
    have hnil : ls = [] := List.length_eq_zero.mp (Nat.le_zero.mp h1)
    subst hnil
    cases fuel2 <;> rfl
  | succ f ih =>
    intro fuel2 ls h1 h2
    cases ls with
    | nil => cases fuel2 <;> rfl
    | cons l rest =>
      cases fuel2 with
      | zero => exact absurd h2 (by simp)
      | succ f2 =>
        simp only [extractBoxesFuel]
        have hr : rest.length ≤ f := by simpa using h1
        have hr2 : rest.length ≤ f2 := by simpa using h2
        by_cases ht : topLine l = true
        · simp only [ht, if_true]
          cases hsb : scanBox 1 [l] rest with
          | mk ob rem =>
            have hrem : rem.length ≤ rest.length := by
              have hle := scanBox_rem_le rest 1 [l]
              rw [hsb] at hle
              exact hle
            cases ob with
            | some box =>
              exact congrArg (box :: ·) (ih f2 rem (le_trans hrem hr) (le_trans hrem hr2))
            | none => exact ih f2 rem (le_trans hrem hr) (le_trans hrem hr2)
        · simp only [ht, if_false]
          exact ih f2 rest hr hr2

/-- One-step unfolding of extractBoxes on a cons cell. -/
theorem extractBoxes_cons (l : String) (rest : List String) :
    extractBoxes (l :: rest) =
      (if topLine l then
        match scanBox 1 [l] rest with
        | (some box, rem) => box :: extractBoxes rem
        | (none, rem) => extractBoxes rem
      else extractBoxes rest) := by
  show extractBoxesFuel (l :: rest).length (l :: rest) = _
  simp only [List.length_cons, extractBoxesFuel]
  by_cases ht : topLine l = true
  · simp only [ht, if_true]
    cases hsb : scanBox 1 [l] rest with
    | mk ob rem =>
      have hrem : rem.length ≤ rest.length := by
        have hle := scanBox_rem_le rest 1 [l]
        rw [hsb] at hle
        exact hle
      cases ob with
      | some box =>
        exact congrArg (box :: ·) (extractBoxesFuel_congr rest.length rem.length rem hrem le_rfl)
      | none => exact extractBoxesFuel_congr rest.length rem.length rem hrem le_rfl
  · simp only [ht, if_false]
    rfl

/-- _extract_claude_boxes: complete box structures of a text, top to bottom. -/
def extractClaudeBoxes (text : String) : List String :=
  (extractBoxes (splitNl text)).map (joinSep "\n")

/-- _validate_box_content, with the ClaudePrompt mutations made explicit: returns the
boolean result together with the updated prompt. -/
def validateBoxContent (tools : List String) (box : String) (p : ClaudePrompt) :
    Bool × ClaudePrompt :=
  if !(hasDoYouWant box) then (false, p)
  else
    let p1 := { p with has_box_structure := true }
    if !(hasCaretOption1 box) then (false, p1)
    else
      let p2 := { p1 with has_option2 := hasOption2Pat box }
      let dt := detectToolInBox tools box
      let p3 := { p2 with detected_tool := dt }
      (dt.isSome, p3)

/-- The box loop of parse_prompt: validate boxes in order, stopping at the first success
(which sets is_valid), threading the partially-filled prompt through failures. -/
def validateLoop (tools : List String) : List String → ClaudePrompt → ClaudePrompt
  | [], p => p
  | b :: bs, p =>
    let r := validateBoxContent tools b p
    if r.1 then { r.2 with is_valid := true } else validateLoop tools bs r.2

/-- parse_prompt from detection/parser.py. -/
def parsePrompt (tools : List String) (text : String) : ClaudePrompt :=
  if text.isEmpty then {}
  else
    let recent := extractRecentText text
    let p : ClaudePrompt :=
      { has_do_you_want := hasDoYouWant recent,
        has_caret_on_option1 := hasCaretOption1 recent }
    if p.has_do_you_want && p.has_caret_on_option1 then
      validateLoop tools (extractClaudeBoxes recent) p
    else p

/-- Indicator substrings used by the duplicate-fingerprint computation in
_check_text_for_prompt. -/
def hashIndicators : List String :=
  ["do you want", "❯", "yes", "don" ++ aposS ++ "t ask again", "edit file", "read file",
   "bash", "write", "multiedit", "grep", "glob", "ls", "webfetch", "websearch"]

/-- Debug-output markers excluded from the fingerprint. -/
def debugMarkers : List String :=
  ["🔍 DEBUG:", "🔄 Monitoring cycle", "🟢 Monitoring", "🔴 Not monitoring"]

/-- Python str.strip(). -/
def pyStrip (s : String) : String :=
  ⟨((s.data.dropWhile isWs).reverse.dropWhile isWs).reverse⟩

/-- Python str.split() with no separator: split on whitespace runs, dropping empties. -/
def pySplitWsAux : List Char → List Char → List String
  | [], [] => []
  | [], acc => [⟨acc.reverse⟩]
  | c :: cs, acc =>
    if isWs c then
      match acc with
      | [] => pySplitWsAux cs []
      | _ => ⟨acc.reverse⟩ :: pySplitWsAux cs []
    else pySplitWsAux cs (c :: acc)

/- Structurally recursive whitespace splitter dropping empty pieces. -/
def pySplitWs (s : String) : List String := pySplitWsAux s.data []

/-- `' '.join(line.strip().split())`. -/
def cleanLine (s : String) : String := joinSep " " (pySplitWs (pyStrip s))

/-- The duplicate fingerprint of a candidate text: the joined last-20 cleaned
indicator-bearing lines of the last 100 lines.  The Python code stores `hash` of this
string; within one run that hash is a deterministic function of this string, so the
string itself serves as the fingerprint. -/
def promptFingerprint (text : String) : String :=
  let lines := splitNl text
  let els := (lastN 100 lines).filterMap (fun l =>
    if hashIndicators.any (fun ind => containsSub (lowerS l) ind) then
      let c := cleanLine l
      if debugMarkers.any (fun m => containsSub c m) then none else some c
    else none)
  joinSep "\n" (lastN 20 els)

/-- Coordinator state of AutoResponder (responder.py), restricted to the fields the
detection/countdown logic reads and writes.  `lastPromptHash` and
`lastCancellationTime` are Options because the Python code tests the attributes'
existence with hasattr. -/
structure RState where
  isInCountdown : Bool := false
  countdownStartTime : ℤ := 0
  countdownPrompt : Option ClaudePrompt := none
  countdownWindowInfo : Option String := none
  originalFocusedWindow : Option String := none
  lastPromptHash : Option String := none
  lastResponseTime : ℤ := 0
  lastCancellationTime : Option ℤ := none
  lastProcessedText : String := ""
deriving DecidableEq

/-- The state set up by AutoResponder.__init__. -/
def initState : RState := {}

/-- _clear_detection_state: clears the processed text, deletes the stored prompt hash
and zeroes last_response_time. -/
def clearDetectionState (s : RState) : RState :=
  { s with lastProcessedText := "", lastPromptHash := none, lastResponseTime := 0 }

/-- _recently_cancelled: was a countdown cancelled within the last 5 seconds? -/
def recentlyCancelled (s : RState) (now : ℤ) : Bool :=
  match s.lastCancellationTime with
  | none => false
  | some t => decide (now - t < 5)

/-- _cancel_countdown: if a countdown is active, clear all countdown session fields,
clear the detection state, and record the cancellation time. -/
def cancelCountdown (s : RState) (now : ℤ) : RState :=
  if s.isInCountdown then
    let s1 := { s with isInCountdown := false, countdownPrompt := none,
                       countdownStartTime := 0, countdownWindowInfo := none,
                       originalFocusedWindow := none }
    { clearDetectionState s1 with lastCancellationTime := some now }
  else s

/-- _check_text_for_prompt: the IDLE-side step of a monitoring cycle.  `now` stands for
the wall clock during the cycle (the Python code reads time.time() twice a few
microseconds apart; both reads are modelled by the same cycle instant). -/
def checkTextForPrompt (tools : List String) (s : RState) (text : String) (now : ℤ) :
    RState :=
  if s.isInCountdown then s
  else if now - s.lastResponseTime < 2 then s
  else
    let recent := extractRecentText text
    let fp := promptFingerprint text
    if s.lastPromptHash = some fp ∧ recentlyCancelled s now = false then s
    else
      let p := parsePrompt tools recent
      if p.is_valid then
        { s with lastPromptHash := some fp, lastProcessedText := recent,
                 isInCountdown := true, countdownStartTime := now,
                 countdownPrompt := some p }
      else s

/-- _final_pre_keystroke_validation, as a function of the freshly retrieved focus state
and window text (checks 1-4; a missing countdown prompt raises in Python and is caught,
yielding False). -/
def finalPreKeystrokeValidation (tools : List String) (cp : Option ClaudePrompt)
    (freshFocused : Bool) (freshText : Option String) : Bool :=
  match freshFocused, freshText, cp with
  | true, some t, some p =>
    let q := parsePrompt tools (extractRecentText t)
    q.is_valid && decide (q.detected_tool = p.detected_tool)
  | _, _, _ => false

/-- The keys send_response submits for a given option; `sendKeyOk` is the oracle for the
boolean result of each underlying send_key call (a failed "2" falls back to "down"). -/
def sendResponseKeys (sendKeyOk : String → Bool) (opt : String) : List String :=
  if opt = "2" then
    (if sendKeyOk "2" then ["2"] else ["2", "down"]) ++ ["enter"]
  else ["enter"]

/-- send_response from platform/macos.py: runs the final-validation callback when one is
supplied (`validation = some b` models a callback returning b; `none` models no
callback); on validation failure returns False having sent nothing, otherwise sends the
keys and returns True regardless of the send_key results. -/
def sendResponse (sendKeyOk : String → Bool) (opt : String) (validation : Option Bool) :
    Bool × List String :=
  match validation with
  | some false => (false, [])
  | _ => (true, sendResponseKeys sendKeyOk opt)

/-- _handle_active_countdown (single-window mode): countdown expiry dispatch with final
re-validation, or mid-countdown re-validation/cancellation.  `fullText` is the text
retrieved for this cycle; `freshFocused`/`freshText` are the focus state and window text
retrieved later, inside the final-validation callback.  Returns the new state and the
keys sent. -/
def handleActiveCountdown (tools : List String) (timeout : ℤ) (s : RState)
    (fullText : String) (now : ℤ) (freshFocused : Bool) (freshText : Option String)
    (sendKeyOk : String → Bool) (escPressed : Bool) : RState × List String :=
  if timeout ≤ now - s.countdownStartTime then
    let ok := finalPreKeystrokeValidation tools s.countdownPrompt freshFocused freshText
    let opt := (s.countdownPrompt.map ClaudePrompt.option_to_select).getD "1"
    let r := sendResponse sendKeyOk opt (some ok)
    if r.1 then
      let s1 := clearDetectionState s
      ({ s1 with isInCountdown := false, countdownPrompt := none }, r.2)
    else
      let s1 := cancelCountdown s now
      ({ s1 with isInCountdown := false, countdownPrompt := none }, r.2)
  else
    let q := parsePrompt tools (extractRecentText fullText)
    if q.is_valid = false then (cancelCountdown s now, [])
    else if escPressed then (cancelCountdown s now, [])
    else (s, [])

/-- _validate_window_prompt: fresh text of the bound window parses to a valid prompt for
the same tool. -/
def validateWindowPrompt (tools : List String) (cp : Option ClaudePrompt)
    (freshText : Option String) : Bool :=
  match freshText, cp with
  | some t, some p =>
    let q := parsePrompt tools (extractRecentText t)
    q.is_valid && decide (q.detected_tool = p.detected_tool)
  | _, _ => false

/-- _handle_multi_window_countdown: on expiry, switch focus, re-validate the bound
window, send, and reset the countdown fields (the start time is not touched);
before expiry, poll the escape key. -/
def handleMultiWindowCountdown (tools : List String) (timeout : ℤ) (s : RState)
    (now : ℤ) (focusOk : Bool) (freshText : Option String) (sendKeyOk : String → Bool)
    (escPressed : Bool) : RState × List String :=
  if timeout ≤ now - s.countdownStartTime then
    let keys :=
      if focusOk then
        if validateWindowPrompt tools s.countdownPrompt freshText then
          sendResponseKeys sendKeyOk
            ((s.countdownPrompt.map ClaudePrompt.option_to_select).getD "1")
        else []
      else []
    let s1 := { s with isInCountdown := false, countdownPrompt := none,
                       countdownWindowInfo := none, originalFocusedWindow := none }
    (clearDetectionState s1, keys)
  else if escPressed then (cancelCountdown s now, [])
  else (s, [])

/-- Whitelist used by the concrete scenarios below. -/
def sampleTools : List String := ["Bash"]

/-- A minimal window text containing one complete, valid Claude prompt box for the
whitelisted tool "Bash". -/
def samplePromptText : String :=
  "╭────╮\n│ Bash command │\n│ Do you want to proceed? │\n│ ❯ 1. Yes │\n╰────╯"

/-- A box body containing the operation name "Edit file". -/
def sampleEditBox : String := "│ Edit file README │"

/-- Net effect on the nesting depth of processing a line, with the guard that every
box-close line is entered at depth at least 2 (so the inner scan never closes early);
used to state the nested-box claim. -/
def stayAbove : Nat → List String → Bool
  | _, [] => true
  | d, l :: ls =>
    if topLine l then stayAbove (d + 1) ls
    else if bottomLine l then decide (2 ≤ d) && stayAbove (d - 1) ls
    else stayAbove d ls

/-- The nesting depth after processing a list of lines. -/
def finalDepth : Nat → List String → Nat
  | d, [] => d
  | d, l :: ls =>
    if topLine l then finalDepth (d + 1) ls
    else if bottomLine l then finalDepth (d - 1) ls
    else finalDepth d ls

/-- A 501-line window text with no box markers at all: each line is "x". -/
def badLines : List String := List.replicate 501 "x"

/-- First match in a descending-length-sorted list is at least as long as every match. -/
theorem find_sorted_longest (box : String) :
    ∀ (l : List String), List.Sorted relLen l →
      ∀ t, l.find? (fun u => toolMatches u box) = some t →
        ∀ u ∈ l, toolMatches u box = true → u.length ≤ t.length := by
  intro l
  induction l with
  | nil => intro _ t hf; simp at hf
  | cons x xs ih =>
    intro hs t hf u hu hm
    rcases List.sorted_cons.mp hs with ⟨hx, hxs⟩
    by_cases hpx : toolMatches x box = true
    · have hstep : List.find? (fun u => toolMatches u box) (x :: xs) = some x :=
        List.find?_cons_of_pos xs (show (fun u => toolMatches u box) x = true from hpx)
      rw [hstep] at hf
      rcases List.mem_cons.mp hu with rfl | hu2
      · exact le_of_eq (congrArg String.length (Option.some_inj.mp hf))
      · have ht : x = t := Option.some_inj.mp hf
        exact ht ▸ hx u hu2
    · have hstep : List.find? (fun u => toolMatches u box) (x :: xs)
          = List.find? (fun u => toolMatches u box) xs :=
        List.find?_cons_of_neg xs (show ¬ (fun u => toolMatches u box) x = true from hpx)
      rw [hstep] at hf
      rcases List.mem_cons.mp hu with rfl | hu2
      · exact absurd hm hpx
      · exact ih hxs t hf u hu2 hm

/-- Membership transfers between a whitelist and its sorted version. -/
theorem mem_sortedTools {tools : List String} {t : String} :
    t ∈ sortedTools tools ↔ t ∈ tools := by
  unfold sortedTools
  exact (List.perm_insertionSort relLen tools).mem_iff

/-- C5: whenever the whitelist detector returns an operation name, that name is a
case-insensitive substring of the block and no matching whitelist entry is longer (so
with several matches the longest matching entry wins); whenever some entry matches, a
name is returned; and on whitelist ["Edit", "Edit file"] with a block containing
"Edit file", the detected operation is "Edit file". -/
theorem c5_longest_whitelist_match :
    (∀ (tools : List String) (box t : String),
        detectToolInBox tools box = some t →
          toolMatches t box = true ∧ t ∈ tools ∧
            ∀ u ∈ tools, toolMatches u box = true → u.length ≤ t.length)
    ∧ (∀ (tools : List String) (box : String) (u : String), u ∈ tools →
        toolMatches u box = true → (detectToolInBox tools box).isSome = true)
    ∧ detectToolInBox ["Edit", "Edit file"] sampleEditBox = some "Edit file" := by
  refine ⟨?_, ?_, by decide⟩
  · intro tools box t hf
    have hf2 : List.find? (fun u => toolMatches u box) (sortedTools tools) = some t := hf
    have hmt : toolMatches t box = true :=
      @List.find?_some String (fun u => toolMatches u box) t (sortedTools tools) hf2
    refine ⟨hmt, ?_, ?_⟩
    · exact mem_sortedTools.mp (List.mem_of_find?_eq_some hf2)
    · intro u hu hm
      exact find_sorted_longest box (sortedTools tools)
        (List.sorted_insertionSort relLen tools) t hf2 u (mem_sortedTools.mpr hu) hm
  · intro tools box u hu hm
    cases hfind : detectToolInBox tools box with
    | some t => rfl
    | none =>
      exact absurd (List.find?_eq_none.mp hfind u (mem_sortedTools.mpr hu)) (by simp [hm])

/-- Witness for C5 at the whitelist ["Edit", "Edit file"] and a block containing
"Edit file". -/
theorem c5_longest_whitelist_match_witness :
    toolMatches "Edit file" sampleEditBox = true ∧ "Edit file" ∈ ["Edit", "Edit file"] ∧
      ∀ u ∈ ["Edit", "Edit file"], toolMatches u sampleEditBox = true →
        u.length ≤ ("Edit file").length :=
  c5_longest_whitelist_match.1 ["Edit", "Edit file"] sampleEditBox "Edit file"
    c5_longest_whitelist_match.2.2

/-- C6: a box validates exactly when the confirmation-phrase check, the
caret-on-option-1 check and the whitelist check all pass on that box; the secondary
option pattern is never a gate, it only sets has_option2 and thereby option_to_select. -/
theorem c6_validation_gates (tools : List String) (box : String) (p : ClaudePrompt) :
    (validateBoxContent tools box p).1 =
      (hasDoYouWant box && (hasCaretOption1 box && (detectToolInBox tools box).isSome))
    ∧ (hasDoYouWant box = true → hasCaretOption1 box = true →
        (validateBoxContent tools box p).2.has_option2 = hasOption2Pat box
        ∧ (validateBoxContent tools box p).2.option_to_select
            = (if hasOption2Pat box then "2" else "1")) := by
  constructor
  · unfold validateBoxContent
    cases hdy : hasDoYouWant box <;> cases hc : hasCaretOption1 box <;> simp [hdy, hc]
  · intro hdy hc
    unfold validateBoxContent
    simp [hdy, hc, ClaudePrompt.option_to_select]

/-- Witness for C6 at the sample prompt box (no secondary option present). -/
theorem c6_validation_gates_witness :
    (validateBoxContent sampleTools samplePromptText {}).1 =
      (hasDoYouWant samplePromptText &&
        (hasCaretOption1 samplePromptText &&
          (detectToolInBox sampleTools samplePromptText).isSome))
    ∧ ((validateBoxContent sampleTools samplePromptText {}).2.has_option2
          = hasOption2Pat samplePromptText
        ∧ (validateBoxContent sampleTools samplePromptText {}).2.option_to_select
            = (if hasOption2Pat samplePromptText then "2" else "1")) :=
  ⟨(c6_validation_gates sampleTools samplePromptText {}).1,
   (c6_validation_gates sampleTools samplePromptText {}).2 (by decide) (by decide)⟩

/-- C10: whenever the final-validation callback does not fail (it returns True or none
was supplied), send_response returns True for every option and every behaviour of the
underlying send_key calls — their boolean results are ignored, so a True return does not
imply that any keystroke was delivered. -/
theorem c10_send_response_ignores_send_key (sendKeyOk : String → Bool) (opt : String)
    (validation : Option Bool) (h : validation ≠ some false) :
    (sendResponse sendKeyOk opt validation).1 = true := by
  cases validation with
  | none => rfl
  | some b =>
    cases b with
    | false => exact absurd rfl h
    | true => rfl

/-- Witness for C10: with no callback and every send_key call failing, send_response
still returns True. -/
theorem c10_send_response_ignores_send_key_witness :
    (sendResponse (fun _ => false) "1" none).1 = true :=
  c10_send_response_ignores_send_key (fun _ => false) "1" none (by decide)

/-- Characterization of a passing final pre-keystroke validation. -/
theorem finalValidation_eq_true (tools : List String) (p : ClaudePrompt)
    (freshFocused : Bool) (freshText : Option String) :
    finalPreKeystrokeValidation tools (some p) freshFocused freshText = true ↔
      freshFocused = true ∧ ∃ t, freshText = some t ∧
        (parsePrompt tools (extractRecentText t)).is_valid = true ∧
        (parsePrompt tools (extractRecentText t)).detected_tool = p.detected_tool := by
  cases freshFocused with
  | false => simp [finalPreKeystrokeValidation]
  | true =>
    cases freshText with
    | none => simp [finalPreKeystrokeValidation]
    | some t => simp [finalPreKeystrokeValidation]

/-- A fresh parse with a changed (or missing) operation name fails the final
validation. -/
theorem finalValidation_eq_false_of_tool_change (tools : List String) (p : ClaudePrompt)
    (freshFocused : Bool) (t : String)
    (hne : (parsePrompt tools (extractRecentText t)).detected_tool ≠ p.detected_tool) :
    finalPreKeystrokeValidation tools (some p) freshFocused (some t) = false := by
  cases freshFocused with
  | false => simp [finalPreKeystrokeValidation]
  | true => simp [finalPreKeystrokeValidation, hne]

/-- C1: on countdown expiry the coordinator dispatches only if one more full parse of
freshly retrieved text (passed to the final-validation callback, not the text that
started the countdown) is valid and its detected operation name equals the one recorded
at countdown start; whenever the fresh parse yields a different (or no) operation name,
no key is sent, the whole countdown session is cleared and the machine returns to IDLE. -/
theorem c1_expiry_revalidation (tools : List String) (timeout : ℤ) (s : RState)
    (fullText : String) (now : ℤ) (freshFocused : Bool) (freshText : Option String)
    (sendKeyOk : String → Bool) (escPressed : Bool) (p : ClaudePrompt)
    (hcd : s.isInCountdown = true) (hp : s.countdownPrompt = some p)
    (hexp : timeout ≤ now - s.countdownStartTime) :
    ((handleActiveCountdown tools timeout s fullText now freshFocused freshText
        sendKeyOk escPressed).2 ≠ [] →
      freshFocused = true ∧ ∃ t, freshText = some t ∧
        (parsePrompt tools (extractRecentText t)).is_valid = true ∧
        (parsePrompt tools (extractRecentText t)).detected_tool = p.detected_tool)
    ∧ (∀ t, freshText = some t →
        (parsePrompt tools (extractRecentText t)).detected_tool ≠ p.detected_tool →
        (handleActiveCountdown tools timeout s fullText now freshFocused freshText
            sendKeyOk escPressed).2 = []
        ∧ (handleActiveCountdown tools timeout s fullText now freshFocused freshText
            sendKeyOk escPressed).1.isInCountdown = false
        ∧ (handleActiveCountdown tools timeout s fullText now freshFocused freshText
            sendKeyOk escPressed).1.countdownPrompt = none
        ∧ (handleActiveCountdown tools timeout s fullText now freshFocused freshText
            sendKeyOk escPressed).1.countdownStartTime = 0
        ∧ (handleActiveCountdown tools timeout s fullText now freshFocused freshText
            sendKeyOk escPressed).1.countdownWindowInfo = none
        ∧ (handleActiveCountdown tools timeout s fullText now freshFocused freshText
            sendKeyOk escPressed).1.originalFocusedWindow = none) := by
  constructor
  · intro hk
    by_cases hb : finalPreKeystrokeValidation tools s.countdownPrompt freshFocused
        freshText = true
    · rw [hp] at hb
      exact (finalValidation_eq_true tools p freshFocused freshText).mp hb
    · exfalso
      apply hk
      have hb2 : finalPreKeystrokeValidation tools s.countdownPrompt freshFocused
          freshText = false := Bool.eq_false_iff.mpr hb
      simp [handleActiveCountdown, if_pos hexp, hb2, sendResponse]
  · intro t hft hne
    have hvf : finalPreKeystrokeValidation tools s.countdownPrompt freshFocused
        freshText = false := by
      rw [hp, hft]
      exact finalValidation_eq_false_of_tool_change tools p freshFocused t hne
    simp [handleActiveCountdown, if_pos hexp, hvf, sendResponse, cancelCountdown, hcd,
      clearDetectionState]

/-- A concrete coordinator state in the middle of a countdown started at time 50 on the
sample prompt. -/
def sampleCountdownState : RState :=
  { initState with
      isInCountdown := true, countdownStartTime := 50,
      countdownPrompt := some (parsePrompt sampleTools samplePromptText),
      lastPromptHash := some (promptFingerprint samplePromptText),
      lastProcessedText := samplePromptText }

/-- Witness for C1: at expiry with fresh text that no longer parses to the same
operation (empty window text), no key is sent and the whole session is cleared. -/
theorem c1_expiry_revalidation_witness :
    (handleActiveCountdown sampleTools 5 sampleCountdownState samplePromptText 56 true
        (some "") (fun _ => true) false).2 = []
    ∧ (handleActiveCountdown sampleTools 5 sampleCountdownState samplePromptText 56 true
        (some "") (fun _ => true) false).1.isInCountdown = false
    ∧ (handleActiveCountdown sampleTools 5 sampleCountdownState samplePromptText 56 true
        (some "") (fun _ => true) false).1.countdownPrompt = none
    ∧ (handleActiveCountdown sampleTools 5 sampleCountdownState samplePromptText 56 true
        (some "") (fun _ => true) false).1.countdownStartTime = 0
    ∧ (handleActiveCountdown sampleTools 5 sampleCountdownState samplePromptText 56 true
        (some "") (fun _ => true) false).1.countdownWindowInfo = none
    ∧ (handleActiveCountdown sampleTools 5 sampleCountdownState samplePromptText 56 true
        (some "") (fun _ => true) false).1.originalFocusedWindow = none :=
  (c1_expiry_revalidation sampleTools 5 sampleCountdownState samplePromptText 56 true
      (some "") (fun _ => true) false (parsePrompt sampleTools samplePromptText)
      rfl rfl (by decide)).2 "" rfl (by decide)

/-- C2: before starting a countdown the coordinator compares the duplicate fingerprint
of the candidate text with the stored one; if they agree and no cancellation happened in
the last 5 seconds the cycle is a no-op (the coordinator stays IDLE), while after a
cancellation within the last 5 seconds a textually identical valid prompt starts a
countdown again. -/
theorem c2_duplicate_suppression :
    (∀ (tools : List String) (s : RState) (text : String) (now : ℤ),
        s.isInCountdown = false →
        s.lastPromptHash = some (promptFingerprint text) →
        recentlyCancelled s now = false →
        checkTextForPrompt tools s text now = s)
    ∧ (∀ (tools : List String) (s0 : RState) (tc now : ℤ) (text : String),
        s0.isInCountdown = true → now - tc < 5 → 2 ≤ now →
        (parsePrompt tools (extractRecentText text)).is_valid = true →
        (checkTextForPrompt tools (cancelCountdown s0 tc) text now).isInCountdown
          = true) := by
  constructor
  · intro tools s text now h0 h1 h2
    by_cases hrl : now - s.lastResponseTime < 2
    · simp [checkTextForPrompt, h0, hrl]
    · simp [checkTextForPrompt, h0, hrl, h1, h2]
  · intro tools s0 tc now text h0 h5 h2 hv
    have hcc : cancelCountdown s0 tc =
        { s0 with isInCountdown := false, countdownPrompt := none,
                  countdownStartTime := 0, countdownWindowInfo := none,
                  originalFocusedWindow := none, lastProcessedText := "",
                  lastPromptHash := none, lastResponseTime := 0,
                  lastCancellationTime := some tc } := by
      simp [cancelCountdown, h0, clearDetectionState]
    rw [hcc]
    have hnl : ¬ (now < 2) := by omega
    simp [checkTextForPrompt, hnl, hv]

/-- Witness for C2: a stored fingerprint equal to the fresh one suppresses the cycle,
and after a cancellation at time 50 the same valid text re-triggers at time 52. -/
theorem c2_duplicate_suppression_witness :
    checkTextForPrompt sampleTools
        { initState with lastPromptHash := some (promptFingerprint samplePromptText) }
        samplePromptText 10
      = { initState with lastPromptHash := some (promptFingerprint samplePromptText) }
    ∧ (checkTextForPrompt sampleTools (cancelCountdown sampleCountdownState 50)
        samplePromptText 52).isInCountdown = true :=
  ⟨c2_duplicate_suppression.1 sampleTools
      { initState with lastPromptHash := some (promptFingerprint samplePromptText) }
      samplePromptText 10 rfl rfl rfl,
   c2_duplicate_suppression.2 sampleTools sampleCountdownState 50 52 samplePromptText
      rfl (by decide) (by decide) (by decide)⟩

/-- C3 (code bug): last_response_time is never assigned the dispatch time — it is 0 from
construction and _clear_detection_state resets it to 0 right after a successful
dispatch — so the "rate limiting" guard `current_time - last_response_time < 2.0` can
never fire on a real clock.  Concretely: a countdown started at 50 dispatches at 56
(Enter is sent), and the very next cycle at 57 — one second after the dispatch — starts
a fresh countdown on a valid prompt instead of refusing it. -/
theorem c3_rate_limit_never_fires :
    (checkTextForPrompt sampleTools initState samplePromptText 50).isInCountdown = true
    ∧ (handleActiveCountdown sampleTools 5
        (checkTextForPrompt sampleTools initState samplePromptText 50)
        samplePromptText 56 true (some samplePromptText) (fun _ => true) false).2
      = ["enter"]
    ∧ (handleActiveCountdown sampleTools 5
        (checkTextForPrompt sampleTools initState samplePromptText 50)
        samplePromptText 56 true (some samplePromptText) (fun _ => true) false).1.lastResponseTime
      = 0
    ∧ (checkTextForPrompt sampleTools
        (handleActiveCountdown sampleTools 5
          (checkTextForPrompt sampleTools initState samplePromptText 50)
          samplePromptText 56 true (some samplePromptText) (fun _ => true) false).1
        samplePromptText 57).isInCountdown = true
    ∧ (checkTextForPrompt sampleTools
        (handleActiveCountdown sampleTools 5
          (checkTextForPrompt sampleTools initState samplePromptText 50)
          samplePromptText 56 true (some samplePromptText) (fun _ => true) false).1
        samplePromptText 57).countdownStartTime = 57 := by
  refine ⟨by decide, by decide, by decide, by decide, by decide⟩

/-- C4 counterexample: the completion path of _handle_active_countdown (successful final
validation and dispatch) clears the prompt and leaves COUNTDOWN, but does not clear the
recorded start time: it stays 50 instead of being reset with the other session fields,
so this ending path clears only a proper subset of the four session fields. -/
theorem c4_completion_leaves_start_time :
    sampleCountdownState.countdownStartTime = 50
    ∧ (handleActiveCountdown sampleTools 5 sampleCountdownState samplePromptText 56 true
        (some samplePromptText) (fun _ => true) false).1.isInCountdown = false
    ∧ (handleActiveCountdown sampleTools 5 sampleCountdownState samplePromptText 56 true
        (some samplePromptText) (fun _ => true) false).1.countdownPrompt = none
    ∧ (handleActiveCountdown sampleTools 5 sampleCountdownState samplePromptText 56 true
        (some samplePromptText) (fun _ => true) false).1.countdownStartTime = 50 := by
  refine ⟨by decide, by decide, by decide, by decide⟩

/-- C4 amended: cancellation (and failed final validation, which routes through
_cancel_countdown) clears all four session fields together; the completion paths —
successful single-window dispatch and the multi-window expiry reset — clear the prompt,
the window info and the origin focus but leave the recorded start time unchanged. -/
theorem c4_amended_session_clearing :
    (∀ (s : RState) (now : ℤ), s.isInCountdown = true →
        (cancelCountdown s now).isInCountdown = false
        ∧ (cancelCountdown s now).countdownPrompt = none
        ∧ (cancelCountdown s now).countdownStartTime = 0
        ∧ (cancelCountdown s now).countdownWindowInfo = none
        ∧ (cancelCountdown s now).originalFocusedWindow = none)
    ∧ (∀ (tools : List String) (timeout : ℤ) (s : RState) (fullText : String)
          (now : ℤ) (ff : Bool) (ft : Option String) (sk : String → Bool) (esc : Bool),
        s.isInCountdown = true → timeout ≤ now - s.countdownStartTime →
        (handleActiveCountdown tools timeout s fullText now ff ft sk esc).1.isInCountdown
            = false
        ∧ (handleActiveCountdown tools timeout s fullText now ff ft sk
            esc).1.countdownPrompt = none
        ∧ (finalPreKeystrokeValidation tools s.countdownPrompt ff ft = true →
            (handleActiveCountdown tools timeout s fullText now ff ft sk
                esc).1.countdownStartTime = s.countdownStartTime
            ∧ (handleActiveCountdown tools timeout s fullText now ff ft sk
                esc).1.countdownWindowInfo = s.countdownWindowInfo
            ∧ (handleActiveCountdown tools timeout s fullText now ff ft sk
                esc).1.originalFocusedWindow = s.originalFocusedWindow)
        ∧ (finalPreKeystrokeValidation tools s.countdownPrompt ff ft = false →
            (handleActiveCountdown tools timeout s fullText now ff ft sk
                esc).1.countdownStartTime = 0
            ∧ (handleActiveCountdown tools timeout s fullText now ff ft sk
                esc).1.countdownWindowInfo = none
            ∧ (handleActiveCountdown tools timeout s fullText now ff ft sk
                esc).1.originalFocusedWindow = none))
    ∧ (∀ (tools : List String) (timeout : ℤ) (s : RState) (now : ℤ) (focusOk : Bool)
          (ft : Option String) (sk : String → Bool) (esc : Bool),
        timeout ≤ now - s.countdownStartTime →
        (handleMultiWindowCountdown tools timeout s now focusOk ft sk esc).1.isInCountdown
            = false
        ∧ (handleMultiWindowCountdown tools timeout s now focusOk ft sk
            esc).1.countdownPrompt = none
        ∧ (handleMultiWindowCountdown tools timeout s now focusOk ft sk
            esc).1.countdownWindowInfo = none
        ∧ (handleMultiWindowCountdown tools timeout s now focusOk ft sk
            esc).1.originalFocusedWindow = none
        ∧ (handleMultiWindowCountdown tools timeout s now focusOk ft sk
            esc).1.countdownStartTime = s.countdownStartTime) := by
  refine ⟨?_, ?_, ?_⟩
  · intro s now h
    simp [cancelCountdown, h, clearDetectionState]
  · intro tools timeout s fullText now ff ft sk esc hcd hexp
    refine ⟨?_, ?_, ?_, ?_⟩
    · cases hb : finalPreKeystrokeValidation tools s.countdownPrompt ff ft <;>
        simp [handleActiveCountdown, if_pos hexp, hb, sendResponse, cancelCountdown,
          hcd, clearDetectionState]
    · cases hb : finalPreKeystrokeValidation tools s.countdownPrompt ff ft <;>
        simp [handleActiveCountdown, if_pos hexp, hb, sendResponse, cancelCountdown,
          hcd, clearDetectionState]
    · intro hb
      simp [handleActiveCountdown, if_pos hexp, hb, sendResponse, clearDetectionState]
    · intro hb
      simp [handleActiveCountdown, if_pos hexp, hb, sendResponse, cancelCountdown,
        hcd, clearDetectionState]
  · intro tools timeout s now focusOk ft sk esc hexp
    simp [handleMultiWindowCountdown, if_pos hexp, clearDetectionState]

/-- Witness for C4 amended, on the concrete countdown state: a cancel at 53 clears all
four fields; a successful dispatch at 56 keeps the start time; the multi-window expiry
reset also keeps it. -/
theorem c4_amended_session_clearing_witness :
    ((cancelCountdown sampleCountdownState 53).isInCountdown = false
      ∧ (cancelCountdown sampleCountdownState 53).countdownPrompt = none
      ∧ (cancelCountdown sampleCountdownState 53).countdownStartTime = 0
      ∧ (cancelCountdown sampleCountdownState 53).countdownWindowInfo = none
      ∧ (cancelCountdown sampleCountdownState 53).originalFocusedWindow = none)
    ∧ (finalPreKeystrokeValidation sampleTools sampleCountdownState.countdownPrompt true
          (some samplePromptText) = true →
        (handleActiveCountdown sampleTools 5 sampleCountdownState samplePromptText 56
            true (some samplePromptText) (fun _ => true) false).1.countdownStartTime
          = sampleCountdownState.countdownStartTime
        ∧ (handleActiveCountdown sampleTools 5 sampleCountdownState samplePromptText 56
            true (some samplePromptText) (fun _ => true) false).1.countdownWindowInfo
          = sampleCountdownState.countdownWindowInfo
        ∧ (handleActiveCountdown sampleTools 5 sampleCountdownState samplePromptText 56
            true (some samplePromptText) (fun _ => true) false).1.originalFocusedWindow
          = sampleCountdownState.originalFocusedWindow)
    ∧ (handleMultiWindowCountdown sampleTools 5 sampleCountdownState 56 true
        (some samplePromptText) (fun _ => true) false).1.countdownStartTime
      = sampleCountdownState.countdownStartTime :=
  ⟨c4_amended_session_clearing.1 sampleCountdownState 53 rfl,
   (c4_amended_session_clearing.2.1 sampleTools 5 sampleCountdownState samplePromptText
      56 true (some samplePromptText) (fun _ => true) false rfl (by decide)).2.2.1,
   (c4_amended_session_clearing.2.2 sampleTools 5 sampleCountdownState 56 true
      (some samplePromptText) (fun _ => true) false (by decide)).2.2.2.2⟩

/-- splitNlAux on newline-free input yields a single piece. -/
theorem splitNlAux_no_nl :
    ∀ (xs acc : List Char), '\n' ∉ xs → splitNlAux xs acc = [⟨acc.reverse ++ xs⟩] := by
  intro xs
  induction xs with
  | nil => intro acc _; simp [splitNlAux]
  | cons c cs ih =>
    intro acc h
    have hc : ¬ (c = '\n') := fun he => h (he ▸ List.mem_cons_self c cs)
    have hcs : '\n' ∉ cs := fun hm => h (List.mem_cons_of_mem c hm)
    simp [splitNlAux, hc, ih (c :: acc) hcs, List.reverse_cons, List.append_assoc]

/-- splitNlAux splits at the first newline. -/
theorem splitNlAux_append_nl :
    ∀ (xs acc rest : List Char), '\n' ∉ xs →
      splitNlAux (xs ++ '\n' :: rest) acc = ⟨acc.reverse ++ xs⟩ :: splitNlAux rest [] := by
  intro xs
  induction xs with
  | nil => intro acc rest _; simp [splitNlAux]
  | cons c cs ih =>
    intro acc rest h
    have hc : ¬ (c = '\n') := fun he => h (he ▸ List.mem_cons_self c cs)
    have hcs : '\n' ∉ cs := fun hm => h (List.mem_cons_of_mem c hm)
    simp [splitNlAux, hc, ih (c :: acc) rest hcs, List.reverse_cons, List.append_assoc]

/-- splitNl inverts joinSep "\n" on nonempty lists of newline-free strings. -/
theorem splitNl_joinSep :
    ∀ (l : List String), l ≠ [] → (∀ s ∈ l, '\n' ∉ s.data) →
      splitNl (joinSep "\n" l) = l := by
  intro l
  induction l with
  | nil => intro h _; exact absurd rfl h
  | cons s rest ih =>
    intro _ hnl
    cases rest with
    | nil =>
      show splitNlAux s.data [] = [s]
      rw [splitNlAux_no_nl s.data [] (hnl s (by simp))]
      simp
    | cons t rest2 =>
      show splitNlAux (s ++ "\n" ++ joinSep "\n" (t :: rest2)).data [] = s :: t :: rest2
      have hd : (s ++ "\n" ++ joinSep "\n" (t :: rest2)).data
          = s.data ++ '\n' :: (joinSep "\n" (t :: rest2)).data := by
        rw [String.data_append, String.data_append]
        simp
      rw [hd, splitNlAux_append_nl s.data [] _ (hnl s (by simp))]
      simp only [List.reverse_nil, List.nil_append]
      have hmk : (⟨s.data⟩ : String) = s := rfl
      rw [hmk]
      have htl : splitNlAux (joinSep "\n" (t :: rest2)).data [] = t :: rest2 :=
        ih (by simp) (fun u hu => hnl u (List.mem_cons_of_mem s hu))
      rw [htl]

/-- A window consisting solely of plain "x" lines has no closing-border line. -/
theorem hasBoxEndFull_replicate (n : Nat) :
    hasBoxEndFull (joinSep "\n" (List.replicate n "x")) = false := by
  cases n with
  | zero => decide
  | succ m =>
    unfold hasBoxEndFull
    rw [splitNl_joinSep (List.replicate (m + 1) "x") (by simp)
      (fun s hs => by rcases List.mem_replicate.mp hs with ⟨_, rfl⟩; decide)]
    rw [List.any_replicate]
    simp only [Nat.succ_ne_zero, if_neg]
    decide

/-- C8 (code bug): on a 501-line window with no box markers, every in-range iteration of
the expansion loop continues with `min (cur + 10) 500` lines — monotonically
non-decreasing and capped at `min MAX_LINES total` — but the missing ceiling check in
the no-end-markers branch makes 500 a fixed point the loop can never leave: at
current_lines = 500 the step neither returns nor grows the window, while the loop
condition `current_lines ≤ min MAX_LINES total = 500` keeps holding, so
_extract_recent_text_dynamic never terminates on this input. -/
theorem c8_expansion_loop_stalls :
    (∀ cur : Nat, 1 ≤ cur → cur ≤ 500 →
        extractStep badLines cur = Sum.inl (min (cur + 10) 500))
    ∧ extractStep badLines 500 = Sum.inl 500
    ∧ min MAX_LINES badLines.length = 500 := by
  have hstep : ∀ cur : Nat, 1 ≤ cur → cur ≤ 500 →
      extractStep badLines cur = Sum.inl (min (cur + 10) 500) := by
    intro cur h1 h2
    have hlast : lastN cur badLines = List.replicate cur "x" := by
      unfold lastN badLines
      rw [List.length_replicate, List.drop_replicate]
      congr 1
      omega
    have hrecent : joinLast badLines cur = joinSep "\n" (List.replicate cur "x") := by
      unfold joinLast
      rw [hlast]
    have hlen : ¬ (badLines.length ≤ cur) := by
      simp only [badLines, List.length_replicate]
      omega
    simp only [extractStep, hrecent, hasBoxEndFull_replicate, Bool.false_and,
      Bool.not_false, if_true, if_neg hlen]
    simp only [badLines, List.length_replicate, EXPANSION_STEP, MAX_LINES]
    rw [Nat.min_assoc]
    norm_num
  refine ⟨hstep, ?_, ?_⟩
  · have h500 := hstep 500 (by omega) (by omega)
    simpa using h500
  · have hb : badLines.length = 501 := by
      rw [show badLines = List.replicate 501 "x" from rfl, List.length_replicate]
    rw [hb]
    decide

/-- A line matching the box-close pattern cannot match the box-open pattern. -/
theorem not_top_of_bottom (s : String) (h : bottomLine s = true) : topLine s = false := by
  unfold bottomLine at h
  unfold topLine
  cases hd : s.data.dropWhile isWs with
  | nil => rw [hd] at h
  | cons c rest =>
    rw [hd] at h
    have hc : c = '╰' := of_decide_eq_true (And.left ((Bool.and_eq_true _ _).mp h))
    subst hc
    rfl

/-- Inner scan through a depth-positive segment followed by the matching close: the box
is completed exactly at the close line. -/
theorem scanBox_through :
    ∀ (mid : List String) (level : Nat) (acc : List String) (b : String)
      (rest : List String),
      stayAbove level mid = true → finalDepth level mid = 1 → bottomLine b = true →
      acc.length + mid.length ≤ LINES_TO_CAPTURE →
      scanBox level acc (mid ++ b :: rest) = (some (acc ++ mid ++ [b]), rest) := by
  intro mid
  induction mid with
  | nil =>
    intro level acc b rest _ hfd hb _
    have hl1 : level = 1 := hfd
    subst hl1
    have hnt : ¬ (topLine b = true) := by
      rw [not_top_of_bottom b hb]
      exact Bool.noConfusion
    simp only [List.nil_append, scanBox]
    rw [if_neg hnt, if_pos hb]
    simp
  | cons l mid2 ih =>
    intro level acc b rest hsa hfd hb hlen
    have hnotbig : ¬ (LINES_TO_CAPTURE < (acc ++ [l]).length) := by
      simp only [List.length_append, List.length_cons, List.length_nil] at hlen ⊢
      omega
    have hlenrec : (acc ++ [l]).length + mid2.length ≤ LINES_TO_CAPTURE := by
      simp only [List.length_append, List.length_cons, List.length_nil] at hlen ⊢
      omega
    by_cases ht : topLine l = true
    · have hsa2 : stayAbove (level + 1) mid2 = true := by simpa [stayAbove, ht] using hsa
      have hfd2 : finalDepth (level + 1) mid2 = 1 := by simpa [finalDepth, ht] using hfd
      have hrec := ih (level + 1) (acc ++ [l]) b rest hsa2 hfd2 hb hlenrec
      simp only [List.cons_append, scanBox, List.append_eq]
      rw [if_pos ht, if_neg hnotbig, hrec]
      simp [List.append_assoc]
    · by_cases hbl : bottomLine l = true
      · have hsa' : 2 ≤ level ∧ stayAbove (level - 1) mid2 = true := by
          have h0 := hsa
          simp [stayAbove, ht, hbl] at h0
          exact h0
        have hfd2 : finalDepth (level - 1) mid2 = 1 := by
          simpa [finalDepth, ht, hbl] using hfd
        have hne1 : ¬ (level = 1) := by omega
        have hrec := ih (level - 1) (acc ++ [l]) b rest hsa'.2 hfd2 hb hlenrec
        simp only [List.cons_append, scanBox, List.append_eq]
        rw [if_neg ht, if_pos hbl, if_neg hne1, if_neg hnotbig, hrec]
        simp [List.append_assoc]
      · have hsa2 : stayAbove level mid2 = true := by simpa [stayAbove, ht, hbl] using hsa
        have hfd2 : finalDepth level mid2 = 1 := by simpa [finalDepth, ht, hbl] using hfd
        have hrec := ih level (acc ++ [l]) b rest hsa2 hfd2 hb hlenrec
        simp only [List.cons_append, scanBox, List.append_eq]
        rw [if_neg ht, if_neg hbl, if_neg hnotbig, hrec]
        simp [List.append_assoc]

/-- Inner scan that runs out of lines without closing: the box is silently dropped and
nothing remains to rescan. -/
theorem scanBox_exhaust :
    ∀ (mid : List String) (level : Nat) (acc : List String),
      stayAbove level mid = true → acc.length + mid.length ≤ LINES_TO_CAPTURE →
      scanBox level acc mid = (none, []) := by
  intro mid
  induction mid with
  | nil => intro level acc _ _; rfl
  | cons l mid2 ih =>
    intro level acc hsa hlen
    have hnotbig : ¬ (LINES_TO_CAPTURE < (acc ++ [l]).length) := by
      simp only [List.length_append, List.length_cons, List.length_nil] at hlen ⊢
      omega
    have hlenrec : (acc ++ [l]).length + mid2.length ≤ LINES_TO_CAPTURE := by
      simp only [List.length_append, List.length_cons, List.length_nil] at hlen ⊢
      omega
    by_cases ht : topLine l = true
    · have hsa2 : stayAbove (level + 1) mid2 = true := by simpa [stayAbove, ht] using hsa
      simp only [scanBox]
      rw [if_pos ht, if_neg hnotbig]
      exact ih (level + 1) (acc ++ [l]) hsa2 hlenrec
    · by_cases hbl : bottomLine l = true
      · have hsa' : 2 ≤ level ∧ stayAbove (level - 1) mid2 = true := by
          have h0 := hsa
          simp [stayAbove, ht, hbl] at h0
          exact h0
        have hne1 : ¬ (level = 1) := by omega
        simp only [scanBox]
        rw [if_neg ht, if_pos hbl, if_neg hne1, if_neg hnotbig]
        exact ih (level - 1) (acc ++ [l]) hsa'.2 hlenrec
      · have hsa2 : stayAbove level mid2 = true := by simpa [stayAbove, ht, hbl] using hsa
        simp only [scanBox]
        rw [if_neg ht, if_neg hbl, if_neg hnotbig]
        exact ih level (acc ++ [l]) hsa2 hlenrec

/-- C7: box extraction counts nesting depth and closes a block only when the depth
returns to zero.  Conjuncts: a non-open line is skipped (so blocks come out in
top-to-bottom order of their opening lines); a depth-positive segment (which may contain
complete inner bordered sub-regions) followed by the matching close yields exactly one
outer block, never split at an inner close marker; a block that opens but never closes
is silently dropped, without any error value. -/
theorem c7_nested_box_extraction :
    (∀ (l : String) (ls : List String), topLine l = false →
        extractBoxes (l :: ls) = extractBoxes ls)
    ∧ (∀ (t : String) (mid : List String) (b : String) (rest : List String),
        topLine t = true → bottomLine b = true → stayAbove 1 mid = true →
        finalDepth 1 mid = 1 → mid.length + 1 ≤ LINES_TO_CAPTURE →
        extractBoxes (t :: (mid ++ b :: rest)) = (t :: (mid ++ [b])) :: extractBoxes rest)
    ∧ (∀ (t : String) (mid : List String), topLine t = true → stayAbove 1 mid = true →
        mid.length + 1 ≤ LINES_TO_CAPTURE →
        extractBoxes (t :: mid) = []) := by
  refine ⟨?_, ?_, ?_⟩
  · intro l ls hnt
    rw [extractBoxes_cons]
    simp [hnt]
  · intro t mid b rest ht hb hsa hfd hlen
    have hsc := scanBox_through mid 1 [t] b rest hsa hfd hb
      (by simp only [List.length_cons, List.length_nil]; omega)
    rw [extractBoxes_cons, if_pos ht, hsc]
    simp
  · intro t mid ht hsa hlen
    have hsc := scanBox_exhaust mid 1 [t] hsa
      (by simp only [List.length_cons, List.length_nil]; omega)
    rw [extractBoxes_cons, if_pos ht, hsc]
    rfl

/-- Witness for C7 on a box that contains one complete nested box: the whole block is
returned as a single outer block, followed by nothing. -/
theorem c7_nested_box_extraction_witness :
    extractBoxes
        ["╭─╮", "│ a │", "╭─╮", "│ b │", "╰─╯", "│ c │", "╰─╯"]
      = [["╭─╮", "│ a │", "╭─╮", "│ b │", "╰─╯", "│ c │", "╰─╯"]] :=
  c7_nested_box_extraction.2.1 "╭─╮" ["│ a │", "╭─╮", "│ b │", "╰─╯", "│ c │"] "╰─╯" []
    (by decide) (by decide) (by decide) (by decide) (by decide)

/-- A completed box carries at most one line more than the safety bound: the close line
is appended without a further safety check, but every earlier append was checked. -/
theorem scanBox_some_le :
    ∀ (ls : List String) (level : Nat) (acc : List String) (box rem : List String),
      acc.length ≤ LINES_TO_CAPTURE → scanBox level acc ls = (some box, rem) →
      box.length ≤ LINES_TO_CAPTURE + 1 := by
  intro ls
  induction ls with
  | nil =>
    intro level acc box rem _ h
    exact absurd h (by simp [scanBox])
  | cons l rest ih =>
    intro level acc box rem hacc h
    simp only [scanBox] at h
    by_cases hbig : LINES_TO_CAPTURE < (acc ++ [l]).length
    · by_cases ht : topLine l = true
      · rw [if_pos ht, if_pos hbig] at h
        exact absurd h (by simp)
      · by_cases hbl : bottomLine l = true
        · rw [if_neg ht, if_pos hbl] at h
          by_cases hl1 : level = 1
          · rw [if_pos hl1] at h
            have hbox : acc ++ [l] = box := congrArg Prod.fst h |> Option.some_inj.mp
            rw [← hbox]
            simp only [List.length_append, List.length_cons, List.length_nil]
            omega
          · rw [if_neg hl1, if_pos hbig] at h
            exact absurd h (by simp)
        · rw [if_neg ht, if_neg hbl, if_pos hbig] at h
          exact absurd h (by simp)
    · have hacc2 : (acc ++ [l]).length ≤ LINES_TO_CAPTURE := by omega
      by_cases ht : topLine l = true
      · rw [if_pos ht, if_neg hbig] at h
        exact ih (level + 1) (acc ++ [l]) box rem hacc2 h
      · by_cases hbl : bottomLine l = true
        · by_cases hl1 : level = 1
          · rw [if_neg ht, if_pos hbl, if_pos hl1] at h
            have hbox : acc ++ [l] = box := congrArg Prod.fst h |> Option.some_inj.mp
            rw [← hbox]
            simp only [List.length_append, List.length_cons, List.length_nil]
            omega
          · rw [if_neg ht, if_pos hbl, if_neg hl1, if_neg hbig] at h
            exact ih (level - 1) (acc ++ [l]) box rem hacc2 h
        · rw [if_neg ht, if_neg hbl, if_neg hbig] at h
          exact ih level (acc ++ [l]) box rem hacc2 h

/-- Every block extracted from a window spans at most LINES_TO_CAPTURE + 1 lines. -/
theorem extractBoxes_length_le :
    ∀ (n : Nat) (ls : List String), ls.length ≤ n →
      ∀ box ∈ extractBoxes ls, box.length ≤ LINES_TO_CAPTURE + 1 := by
  intro n
  induction n with
  | zero =>
    intro ls hl box hm
    have hnil : ls = [] := List.length_eq_zero.mp (Nat.le_zero.mp hl)
    subst hnil
    simp [extractBoxes, extractBoxesFuel] at hm
  | succ k ih =>
    intro ls hl box hm
    cases ls with
    | nil => simp [extractBoxes, extractBoxesFuel] at hm
    | cons l rest =>
      have hrk : rest.length ≤ k := by
        simp only [List.length_cons] at hl
        omega
      rw [extractBoxes_cons] at hm
      by_cases ht : topLine l = true
      · rw [if_pos ht] at hm
        cases hsb : scanBox 1 [l] rest with
        | mk ob rem =>
          rw [hsb] at hm
          have hrem : rem.length ≤ rest.length := by
            have hle := scanBox_rem_le rest 1 [l]
            rw [hsb] at hle
            exact hle
          cases ob with
          | some bx =>
            rcases List.mem_cons.mp hm with rfl | hm2
            · exact scanBox_some_le rest 1 [l] box rem
                (by norm_num [List.length_cons, List.length_nil, LINES_TO_CAPTURE]) hsb
            · exact ih rem (le_trans hrem hrk) box hm2
          | none => exact ih rem (le_trans hrem hrk) box hm
      · rw [if_neg ht] at hm
        exact ih rest hrk box hm

/-- A safety break: scanning a box whose content overruns the bound abandons it,
resuming (at a non-open line) just before the remaining input. -/
theorem scanBox_abandon :
    ∀ (xs : List String) (level : Nat) (acc : List String) (rest : List String),
      (∀ l ∈ xs, topLine l = false ∧ bottomLine l = false) →
      acc.length + xs.length = LINES_TO_CAPTURE + 1 → 1 ≤ xs.length →
      ∃ y, topLine y = false ∧ scanBox level acc (xs ++ rest) = (none, y :: rest) := by
  intro xs
  induction xs with
  | nil =>
    intro level acc rest _ _ h1
    exact absurd h1 (by simp)
  | cons x xs2 ih =>
    intro level acc rest hflat hlen _
    have hx := hflat x (List.mem_cons_self x xs2)
    have hnt : ¬ (topLine x = true) := by simp [hx.1]
    have hnb : ¬ (bottomLine x = true) := by simp [hx.2]
    cases xs2 with
    | nil =>
      have hbig : LINES_TO_CAPTURE < (acc ++ [x]).length := by
        simp only [List.length_cons, List.length_nil] at hlen
        simp only [List.length_append, List.length_cons, List.length_nil]
        omega
      refine ⟨x, hx.1, ?_⟩
      simp only [List.cons_append, List.nil_append, scanBox]
      rw [if_neg hnt, if_neg hnb, if_pos hbig]
      rfl
    | cons x2 xs3 =>
      have hnotbig : ¬ (LINES_TO_CAPTURE < (acc ++ [x]).length) := by
        simp only [List.length_cons] at hlen
        simp only [List.length_append, List.length_cons, List.length_nil]
        omega
      have hrec := ih level (acc ++ [x]) rest
        (fun l hl => hflat l (List.mem_cons_of_mem x hl))
        (by simp only [List.length_append, List.length_cons, List.length_nil] at hlen ⊢; omega)
        (by simp)
      obtain ⟨y, hy, hsc⟩ := hrec
      refine ⟨y, hy, ?_⟩
      simp only [List.cons_append, scanBox]
      rw [if_neg hnt, if_neg hnb, if_neg hnotbig]
      exact hsc

/-- C9: every block returned by the box extractor spans at most LINES_TO_CAPTURE + 1
lines, and a box that opens but accumulates LINES_TO_CAPTURE content lines without
closing is abandoned: scanning resumes after it and the overlong dialog is never
extracted (hence can never validate). -/
theorem c9_box_length_cap :
    (∀ (ls : List String) (box : List String), box ∈ extractBoxes ls →
        box.length ≤ LINES_TO_CAPTURE + 1)
    ∧ (∀ (t : String) (xs rest : List String), topLine t = true →
        (∀ l ∈ xs, topLine l = false ∧ bottomLine l = false) →
        xs.length = LINES_TO_CAPTURE →
        extractBoxes (t :: (xs ++ rest)) = extractBoxes rest) := by
  refine ⟨?_, ?_⟩
  · intro ls box hm
    exact extractBoxes_length_le ls.length ls le_rfl box hm
  · intro t xs rest ht hflat hxs
    obtain ⟨y, hy, hsc⟩ := scanBox_abandon xs 1 [t] rest hflat
      (by simp only [List.length_cons, List.length_nil, hxs]; omega)
      (by rw [hxs]; decide)
    rw [extractBoxes_cons, if_pos ht, hsc]
    show extractBoxes (y :: rest) = extractBoxes rest
    rw [extractBoxes_cons]
    simp [hy]

/-- Witness for C9: a minimal two-line box satisfies the bound, and a box opening onto
500 plain content lines is dropped entirely. -/
theorem c9_box_length_cap_witness :
    (["╭─╮", "╰─╯"] : List String).length ≤ LINES_TO_CAPTURE + 1
    ∧ extractBoxes ("╭─╮" :: (List.replicate LINES_TO_CAPTURE "x" ++ ["╰─╯"]))
        = extractBoxes ["╰─╯"] :=
  ⟨c9_box_length_cap.1 ["╭─╮", "╰─╯"] ["╭─╮", "╰─╯"] (by decide),
   c9_box_length_cap.2 "╭─╮" (List.replicate LINES_TO_CAPTURE "x") ["╰─╯"] (by decide)
     (fun l hl => by
       rcases (List.mem_replicate.mp hl).2 with rfl
       exact ⟨rfl, rfl⟩)
     (List.length_replicate LINES_TO_CAPTURE "x")⟩

/-- Witness for C8 at a concrete in-range size: one iteration at 490 lines continues
with the grown (capped) window size. -/
theorem c8_expansion_loop_stalls_witness :
    extractStep badLines 490 = Sum.inl (min (490 + 10) 500) :=
  c8_expansion_loop_stalls.1 490 (by decide) (by decide)
